import Mathlib

/- Verification development for the zstack-ctl lifecycle and upgrade
orchestration engine (zstackctl/ctl.py).  The Python source is shallowly
embedded: wall-clock time is discretized to whole seconds, each poll of a
predicate is instantaneous, and `time.sleep(interval)` advances the clock by
exactly `interval`.  Stateful command sequences are embedded as functions
returning the list of externally visible actions they performed together
with their outcome. -/

namespace Zstack

/-! ## HealthProbe: the `loop_until_timeout` decorator (ctl.py lines 29-42)

The decorated function repeatedly evaluates the wrapped predicate:

    current_time = time.time()
    expired = current_time + timeout
    while current_time < expired:
        if f(*args, **kwargs):
            return True
        time.sleep(interval)
        current_time = time.time()
    return False

Normalizing the start instant to 0, the predicate is evaluated at elapsed
times 0, interval, 2*interval, ... while the elapsed time is strictly less
than `timeout`.  `loopGo` is the loop body with explicit fuel (the fuel
`timeout + 1` is never exhausted when `interval > 0`, see `fuel_enough`);
the pair returned is (result, elapsed time at return). -/

def loopGo (expired interval : ℕ) (p : ℕ → Bool) : ℕ → ℕ → Bool × ℕ
  | current, 0 => (false, current)
  | current, fuel + 1 =>
    if current < expired then
      if p current = true then (true, current)
      else loopGo expired interval p (current + interval) fuel
    else (false, current)

def loop_until_timeout (timeout interval : ℕ) (p : ℕ → Bool) : Bool × ℕ :=
  loopGo timeout interval p 0 (timeout + 1)

/-- A predicate that first becomes true at time `t` (monotone step predicate). -/
def stepPred (t : ℕ) : ℕ → Bool := fun e => decide (t ≤ e)

theorem loopGo_of_expired (T I : ℕ) (p : ℕ → Bool) (fuel current : ℕ)
    (h : T ≤ current) : loopGo T I p current fuel = (false, current) := by
  cases fuel with
  | zero => rfl
  | succ n => simp [loopGo, Nat.not_lt.mpr h]

/-- Soundness of the polling loop on a step predicate: a `true` return happens
at a probe instant (a multiple of the interval) in `[t, t + I)` strictly below
the deadline; a `false` return happens at elapsed time at least the deadline. -/
theorem loopGo_spec (T I t : ℕ) :
    ∀ fuel current, T ≤ current + fuel * I → I ∣ current → current < t + I →
      (((loopGo T I (stepPred t) current fuel).1 = true →
          I ∣ (loopGo T I (stepPred t) current fuel).2 ∧
          t ≤ (loopGo T I (stepPred t) current fuel).2 ∧
          (loopGo T I (stepPred t) current fuel).2 < T ∧
          (loopGo T I (stepPred t) current fuel).2 < t + I) ∧
        ((loopGo T I (stepPred t) current fuel).1 = false →
          T ≤ (loopGo T I (stepPred t) current fuel).2)) := by
  intro fuel
  induction fuel with
  | zero =>
    intro current hT _ _
    constructor
    · intro h
      simp [loopGo] at h
    · intro _
      simp only [loopGo]
      omega
  | succ n ih =>
    intro current hT hdvd hlt
    by_cases hc : current < T
    · by_cases hp : t ≤ current
      · simp only [loopGo, if_pos hc, stepPred, decide_eq_true_eq, if_pos hp]
        exact ⟨fun _ => ⟨hdvd, hp, hc, hlt⟩, fun h => by simp at h⟩
      · have hstep : loopGo T I (stepPred t) current (n + 1) =
            loopGo T I (stepPred t) (current + I) n := by
          simp only [loopGo, if_pos hc, stepPred, decide_eq_true_eq, if_neg hp]
        have hmul : (n + 1) * I = n * I + I := Nat.succ_mul n I
        rw [hstep]
        exact ih (current + I) (by omega) (dvd_add hdvd dvd_rfl) (by omega)
    · simp only [loopGo, if_neg hc]
      exact ⟨fun h => by simp at h, fun _ => by omega⟩

/-- Completeness of the polling loop on a step predicate: if some probe
instant reachable from `current` by steps of `I` satisfies the predicate
and lies strictly below the deadline, the loop returns `true`. -/
theorem loopGo_reaches (T I t : ℕ) :
    ∀ fuel current c, current ≤ c → I ∣ (c - current) → t ≤ c → c < T →
      T ≤ current + fuel * I →
      (loopGo T I (stepPred t) current fuel).1 = true := by
  intro fuel
  induction fuel with
  | zero => intro current c h1 _ _ h4 h5; omega
  | succ n ih =>
    intro current c h1 h2 h3 h4 h5
    have hc : current < T := lt_of_le_of_lt h1 h4
    by_cases hp : t ≤ current
    · simp only [loopGo, if_pos hc, stepPred, decide_eq_true_eq, if_pos hp]
    · have hcc : current < c := lt_of_lt_of_le (lt_of_not_le hp) h3
      obtain ⟨k, hk⟩ := h2
      have hkpos : 0 < k := by
        rcases Nat.eq_zero_or_pos k with h | h
        · subst h; simp at hk; omega
        · exact h
      have hkm : I * k = I * (k - 1) + I := by
        have hk1 : (k - 1).succ = k := by omega
        have h := Nat.mul_succ I (k - 1)
        rw [hk1] at h
        exact h
      have hmul : (n + 1) * I = n * I + I := Nat.succ_mul n I
      have hstep : loopGo T I (stepPred t) current (n + 1) =
          loopGo T I (stepPred t) (current + I) n := by
        simp only [loopGo, if_pos hc, stepPred, decide_eq_true_eq, if_neg hp]
      rw [hstep]
      refine ih (current + I) c (by omega) ⟨k - 1, by omega⟩ h3 h4 (by omega)

theorem fuel_enough (T I : ℕ) (hI : 0 < I) : T ≤ 0 + (T + 1) * I := by
  have h1 : (T + 1) * 1 ≤ (T + 1) * I := Nat.mul_le_mul_left (T + 1) hI
  omega

/-- C1: For timeout `T > 0`, interval `I > 0` and a predicate first true at
time `t`, the polling loop probes immediately (for `t = 0` it returns
`(true, 0)`); it returns `true` if and only if some probe instant `c` (a
multiple of `I` with `t ≤ c < t + I`) lies strictly below `T`; on a `true`
return the elapsed time lies in `[t, t + I)` and below `T`; on a `false`
return (timeout) the elapsed time is at least `T`.  (Amended from "returns
true iff `t ≤ T`": when the first probe instant at or after `t` lands at or
beyond `T` — e.g. `T = I = t = 1` — the loop returns `false` although
`t ≤ T`.) -/
theorem C1_loop_until_timeout (T I t : ℕ) (hT : 0 < T) (hI : 0 < I) :
    ((loop_until_timeout T I (stepPred t)).1 = true ↔
        ∃ c, I ∣ c ∧ t ≤ c ∧ c < t + I ∧ c < T) ∧
    ((loop_until_timeout T I (stepPred t)).1 = true →
        t ≤ (loop_until_timeout T I (stepPred t)).2 ∧
        (loop_until_timeout T I (stepPred t)).2 < t + I ∧
        (loop_until_timeout T I (stepPred t)).2 < T) ∧
    ((loop_until_timeout T I (stepPred t)).1 = false →
        T ≤ (loop_until_timeout T I (stepPred t)).2) ∧
    (t = 0 → loop_until_timeout T I (stepPred t) = (true, 0)) := by
  have hfuel := fuel_enough T I hI
  have hspec := loopGo_spec T I t (T + 1) 0 hfuel (dvd_zero I) (by omega)
  unfold loop_until_timeout
  refine ⟨⟨?_, ?_⟩, ?_, ?_, ?_⟩
  · intro h
    obtain ⟨hdvd, h1, h2, h3⟩ := hspec.1 h
    exact ⟨_, hdvd, h1, h3, h2⟩
  · rintro ⟨c, hdvd, h1, h2, h3⟩
    exact loopGo_reaches T I t (T + 1) 0 c (Nat.zero_le c) (by simpa using hdvd) h1 h3 hfuel
  · intro h
    obtain ⟨_, h1, h2, h3⟩ := hspec.1 h
    exact ⟨h1, h3, h2⟩
  · exact hspec.2
  · intro ht
    subst ht
    cases T with
    | zero => omega
    | succ n => simp [loopGo, stepPred]

/-- C1 counterexample to the claim as stated: with timeout 1, interval 1 and
a predicate first true at time 1, we have `t ≤ T`, yet the loop returns
`false` (the only probe happens at elapsed time 0, and at elapsed time 1 the
deadline has been reached). -/
theorem C1_counterexample :
    (1 : ℕ) ≤ 1 ∧ (loop_until_timeout 1 1 (stepPred 1)).1 = false := by decide

/-- C1 witness: concrete instance `T = 3`, `I = 1`, `t = 2` of
`C1_loop_until_timeout`; the loop succeeds and its elapsed time is ≥ 2. -/
theorem C1_witness :
    (loop_until_timeout 3 1 (stepPred 2)).1 = true ∧
    2 ≤ (loop_until_timeout 3 1 (stepPred 2)).2 := by
  have h := C1_loop_until_timeout 3 1 2 (by decide) (by decide)
  have htrue : (loop_until_timeout 3 1 (stepPred 2)).1 = true :=
    h.1.mpr ⟨2, one_dvd 2, le_refl 2, by omega, by omega⟩
  exact ⟨htrue, (h.2.1 htrue).1⟩

/-! ## ServiceController: StopCmd.run (ctl.py 1154-1199) and StartCmd.run
(ctl.py 1029-1152), local path (`args.host` unset).

Externally visible actions are recorded in order.  `StopEnv` gives the
environment a `stop_node` invocation observes: whether
`get_management_node_pid()` finds a process at entry, the elapsed time
(after the graceful stop script) at which the process disappears
(`disappearAt`; a value ≥ 30 means "not within the 30 s deadline"), whether
the process is still found when the pid is re-read after the graceful
phase, and whether `kill -9` succeeds. -/

inductive SvcAction where
  | rmBootErrorLog
  | check8080
  | checkMysql
  | checkRabbit
  | prepareSetenv
  | startScript
  | sleepSecs (n : ℕ)
  | waitReady (timeout interval : ℕ)
  | stopScript
  | pollGone (deadline interval : ℕ)
  | killProc
  | stopNodeCleanup
deriving DecidableEq, Repr

structure StopEnv where
  presentAtEntry : Bool
  disappearAt : ℕ
  presentAtRecheck : Bool
  killOk : Bool
deriving DecidableEq, Repr

inductive StopOutcome where
  | ok
  | killError
deriving DecidableEq, Repr

/-- The `wait_stop` inner function of `StopCmd.run`: poll for process
disappearance with `loop_until_timeout(30)` at the default interval 1. -/
def wait_stop (env : StopEnv) : Bool :=
  (loop_until_timeout 30 1 (stepPred env.disappearAt)).1

/-- Tail of `StopCmd.run` after the graceful phase: re-read the pid and, if
the process is still present, `kill -9` it under `on_error`. -/
def stopFinish (env : StopEnv) (acts : List SvcAction) : List SvcAction × StopOutcome :=
  if env.presentAtRecheck = true then
    if env.killOk = true then (acts ++ [SvcAction.killProc], StopOutcome.ok)
    else (acts ++ [SvcAction.killProc], StopOutcome.killError)
  else (acts, StopOutcome.ok)

/-- `StopCmd.run` (local path): early success if no process is found;
otherwise, unless `force` is set, run the graceful stop script and poll for
disappearance (deadline 30 s, interval 1 s), returning on success; finally
escalate to `kill -9` if the process is still present. -/
def stopRun (force : Bool) (env : StopEnv) : List SvcAction × StopOutcome :=
  if env.presentAtEntry = false then ([], StopOutcome.ok)
  else
    if force = false then
      if wait_stop env = true then
        ([SvcAction.stopScript, SvcAction.pollGone 30 1], StopOutcome.ok)
      else stopFinish env [SvcAction.stopScript, SvcAction.pollGone 30 1]
    else stopFinish env []

/-- Whether the management-node process is absent once `stopRun` finishes. -/
def stopLeavesGone (force : Bool) (env : StopEnv) : Bool :=
  if env.presentAtEntry = false then true
  else if force = false ∧ wait_stop env = true then true
  else if env.presentAtRecheck = true then env.killOk
  else true

/-! `StartEnv` gives the environment a `start_node` invocation observes:
whether a management-node process already runs, whether the caller is root,
whether port 8080 is occupied, whether MySQL and RabbitMQ are reachable, the
elapsed time (after the initial 5 s sleep) at which the readiness probe
first succeeds (`readyAt`; a value ≥ the timeout means "never within the
timeout"), and the environment observed by the best-effort cleanup
`stop_node` run on readiness timeout. -/

structure StartEnv where
  alreadyRunning : Bool
  rootUser : Bool
  port8080Busy : Bool
  mysqlOk : Bool
  rabbitOk : Bool
  readyAt : ℕ
  cleanupStop : StopEnv
deriving DecidableEq, Repr

inductive StartError where
  | notRoot
  | occupied8080
  | mysqlUnreachable
  | rabbitUnreachable
  | startupTimeout
deriving DecidableEq, Repr

/-- `StartCmd.run` (local path).  Returns (actions, error if any, whether a
management-node process is present afterwards).  The boot-error log is
removed first; if a process is already running the command returns at once;
then root is required, port 8080 must be free, MySQL and RabbitMQ must be
reachable; the start script runs, 5 s are slept, and readiness is polled
with `loop_until_timeout(timeout)` at the default interval 1.  On readiness
timeout a best-effort `stop_node` is attempted (its own error swallowed)
and the timeout error is re-raised. -/
def startRun (timeout : ℕ) (env : StartEnv) : List SvcAction × Option StartError × Bool :=
  if env.alreadyRunning = true then ([SvcAction.rmBootErrorLog], none, true)
  else if env.rootUser = false then
    ([SvcAction.rmBootErrorLog], some StartError.notRoot, false)
  else if env.port8080Busy = true then
    ([SvcAction.rmBootErrorLog, SvcAction.check8080], some StartError.occupied8080, false)
  else if env.mysqlOk = false then
    ([SvcAction.rmBootErrorLog, SvcAction.check8080, SvcAction.checkMysql],
      some StartError.mysqlUnreachable, false)
  else if env.rabbitOk = false then
    ([SvcAction.rmBootErrorLog, SvcAction.check8080, SvcAction.checkMysql, SvcAction.checkRabbit],
      some StartError.rabbitUnreachable, false)
  else
    let pre := [SvcAction.rmBootErrorLog, SvcAction.check8080, SvcAction.checkMysql,
      SvcAction.checkRabbit, SvcAction.prepareSetenv, SvcAction.startScript,
      SvcAction.sleepSecs 5, SvcAction.waitReady timeout 1]
    if (loop_until_timeout timeout 1 (stepPred env.readyAt)).1 = true then (pre, none, true)
    else
      (pre ++ SvcAction.stopNodeCleanup :: (stopRun false env.cleanupStop).1,
        some StartError.startupTimeout, !stopLeavesGone false env.cleanupStop)

/-- C5: On a running service with `force = false`, `stop_node` first runs the
graceful stop script and then polls for process disappearance with deadline
30 s and interval 1 s; a forced `kill -9` is issued if and only if the
graceful poll timed out and the process is still present at the re-check;
with `force = true` the graceful phase (stop script and poll) is skipped. -/
theorem C5_stop_graceful_then_kill (dA : ℕ) (pr k : Bool) :
    ((stopRun false ⟨true, dA, pr, k⟩).1.take 2 =
        [SvcAction.stopScript, SvcAction.pollGone 30 1]) ∧
    (SvcAction.killProc ∈ (stopRun false ⟨true, dA, pr, k⟩).1 ↔
        wait_stop ⟨true, dA, pr, k⟩ = false ∧ pr = true) ∧
    SvcAction.stopScript ∉ (stopRun true ⟨true, dA, pr, k⟩).1 ∧
    SvcAction.pollGone 30 1 ∉ (stopRun true ⟨true, dA, pr, k⟩).1 := by
  cases hw : wait_stop ⟨true, dA, pr, k⟩ <;> cases pr <;> cases k <;>
    simp_all [stopRun, stopFinish]

/-- C5 witness: concrete instance of `C5_stop_graceful_then_kill` (process
present, disappears immediately after the stop script). -/
theorem C5_witness :
    (stopRun false ⟨true, 0, false, false⟩).1.take 2 =
      [SvcAction.stopScript, SvcAction.pollGone 30 1] :=
  (C5_stop_graceful_then_kill 0 false false).1

/-- C7: `stop_node` on an already stopped service (no process found at
entry) returns success immediately, with no stop script and no kill, for
any `force` flag. -/
theorem C7_stop_idempotent (force : Bool) (dA : ℕ) (pr k : Bool) :
    stopRun force ⟨false, dA, pr, k⟩ = ([], StopOutcome.ok) ∧
    SvcAction.stopScript ∉ (stopRun force ⟨false, dA, pr, k⟩).1 ∧
    SvcAction.killProc ∉ (stopRun force ⟨false, dA, pr, k⟩).1 := by
  simp [stopRun]

/-- C7 witness: concrete instance of `C7_stop_idempotent`. -/
theorem C7_witness : stopRun false ⟨false, 3, true, true⟩ = ([], StopOutcome.ok) :=
  (C7_stop_idempotent false 3 true true).1

/-- C6: `start_node` on an already running service returns success at once:
the only action performed is the removal of the stale boot-error log — no
dependency check (8080/MySQL/RabbitMQ), no start script, no cleanup stop —
and the node is still running afterwards. -/
theorem C6_start_idempotent (timeout : ℕ) (ru pb m rb : Bool) (ra : ℕ) (se : StopEnv) :
    startRun timeout ⟨true, ru, pb, m, rb, ra, se⟩ =
      ([SvcAction.rmBootErrorLog], none, true) ∧
    SvcAction.check8080 ∉ (startRun timeout ⟨true, ru, pb, m, rb, ra, se⟩).1 ∧
    SvcAction.checkMysql ∉ (startRun timeout ⟨true, ru, pb, m, rb, ra, se⟩).1 ∧
    SvcAction.checkRabbit ∉ (startRun timeout ⟨true, ru, pb, m, rb, ra, se⟩).1 ∧
    SvcAction.startScript ∉ (startRun timeout ⟨true, ru, pb, m, rb, ra, se⟩).1 ∧
    SvcAction.stopNodeCleanup ∉ (startRun timeout ⟨true, ru, pb, m, rb, ra, se⟩).1 := by
  simp [startRun]

/-- C6 witness: concrete instance of `C6_start_idempotent`. -/
theorem C6_witness :
    startRun 300 ⟨true, true, false, true, true, 0, ⟨false, 0, false, true⟩⟩ =
      ([SvcAction.rmBootErrorLog], none, true) :=
  (C6_start_idempotent 300 true false true true 0 ⟨false, 0, false, true⟩).1

/-- C4 counterexample to the claim as stated: readiness never achieved
within the 1 s timeout, and the best-effort cleanup stop fails (graceful
stop does not terminate the process and `kill -9` fails).  `start_node`
does attempt the cleanup and reports the startup-timeout error, but the
management-node process is still present afterwards — the service is not
left Stopped. -/
theorem C4_counterexample :
    ((startRun 1 ⟨false, true, false, true, true, 5, ⟨true, 100, true, false⟩⟩).2.1 =
        some StartError.startupTimeout) ∧
    SvcAction.stopNodeCleanup ∈
      (startRun 1 ⟨false, true, false, true, true, 5, ⟨true, 100, true, false⟩⟩).1 ∧
    (startRun 1 ⟨false, true, false, true, true, 5, ⟨true, 100, true, false⟩⟩).2.2 = true := by
  decide

/-- C4 (amended): when the readiness probe never succeeds within the
caller-supplied timeout, `start_node` attempts a best-effort `stop_node`
(auto-cleanup) and still surfaces the startup-timeout error; the service is
left stopped (process absent) whenever that cleanup stop actually removes
the process — the cleanup is best-effort, so if it fails the process may
remain. -/
theorem C4_start_timeout_cleanup (timeout : ℕ) (env : StartEnv)
    (h1 : env.alreadyRunning = false) (h2 : env.rootUser = true)
    (h3 : env.port8080Busy = false) (h4 : env.mysqlOk = true) (h5 : env.rabbitOk = true)
    (hprobe : (loop_until_timeout timeout 1 (stepPred env.readyAt)).1 = false) :
    (startRun timeout env).2.1 = some StartError.startupTimeout ∧
    SvcAction.stopNodeCleanup ∈ (startRun timeout env).1 ∧
    (stopLeavesGone false env.cleanupStop = true → (startRun timeout env).2.2 = false) := by
  simp [startRun, h1, h2, h3, h4, h5, hprobe]

/-- C4 witness: concrete instance of `C4_start_timeout_cleanup` where the
cleanup stop succeeds, so the error is reported and the process is gone. -/
theorem C4_witness :
    (startRun 1 ⟨false, true, false, true, true, 10, ⟨true, 0, false, true⟩⟩).2.1 =
        some StartError.startupTimeout ∧
    (startRun 1 ⟨false, true, false, true, true, 10, ⟨true, 0, false, true⟩⟩).2.2 = false := by
  have h := C4_start_timeout_cleanup 1 ⟨false, true, false, true, true, 10, ⟨true, 0, false, true⟩⟩
    rfl rfl rfl rfl rfl (by decide)
  exact ⟨h.1, h.2.2 (by decide)⟩

/-! ## TopologyController: StopAllCmd.run (ctl.py 946-981) and
StartAllCmd.run (ctl.py 992-1027).

Each step is a plain sequential call: the cassandra/kairosdb/UI steps first
check an install marker and skip (with an info message) when it is absent;
the management-node step has no marker.  There is no try/except around the
steps, so a step that raises aborts the remaining steps.  `TopoEnv` records
which install markers are present and which executed steps fail (raise). -/

inductive TopoSvc where
  | cassandra
  | kairosdb
  | mgmtNode
  | ui
deriving DecidableEq, Repr

inductive TopoAction where
  | skipped (s : TopoSvc)
  | attempted (s : TopoSvc)
deriving DecidableEq, Repr

structure TopoEnv where
  cassandraInstalled : Bool
  kairosdbInstalled : Bool
  uiInstalled : Bool
  uiStepFails : Bool
  nodeStepFails : Bool
  kairosdbStepFails : Bool
  cassandraStepFails : Bool
deriving DecidableEq, Repr

/-- One topology step: skip if the install marker is absent, otherwise
attempt it; the second component is `false` when the step raised. -/
def topoStep (installed fails : Bool) (s : TopoSvc) : List TopoAction × Bool :=
  if installed = false then ([TopoAction.skipped s], true)
  else ([TopoAction.attempted s], !fails)

/-- `StopAllCmd.run`: UI, then management node, then kairosdb, then
cassandra; an exception in one step propagates and aborts the rest. -/
def stopAllRun (env : TopoEnv) : List TopoAction × Bool :=
  let s1 := topoStep env.uiInstalled env.uiStepFails TopoSvc.ui
  if s1.2 = false then (s1.1, false) else
  let s2 := topoStep true env.nodeStepFails TopoSvc.mgmtNode
  if s2.2 = false then (s1.1 ++ s2.1, false) else
  let s3 := topoStep env.kairosdbInstalled env.kairosdbStepFails TopoSvc.kairosdb
  if s3.2 = false then (s1.1 ++ s2.1 ++ s3.1, false) else
  let s4 := topoStep env.cassandraInstalled env.cassandraStepFails TopoSvc.cassandra
  (s1.1 ++ s2.1 ++ s3.1 ++ s4.1, s4.2)

/-- `StartAllCmd.run`: cassandra, then kairosdb, then management node, then
UI; an exception in one step propagates and aborts the rest. -/
def startAllRun (env : TopoEnv) : List TopoAction × Bool :=
  let s1 := topoStep env.cassandraInstalled env.cassandraStepFails TopoSvc.cassandra
  if s1.2 = false then (s1.1, false) else
  let s2 := topoStep env.kairosdbInstalled env.kairosdbStepFails TopoSvc.kairosdb
  if s2.2 = false then (s1.1 ++ s2.1, false) else
  let s3 := topoStep true env.nodeStepFails TopoSvc.mgmtNode
  if s3.2 = false then (s1.1 ++ s2.1 ++ s3.1, false) else
  let s4 := topoStep env.uiInstalled env.uiStepFails TopoSvc.ui
  (s1.1 ++ s2.1 ++ s3.1 ++ s4.1, s4.2)

/-- C8 counterexample to the claim as stated: all services installed and the
UI stop step fails; the failure is not tolerated — the management-node stop
step never executes and the run aborts with failure, contradicting "a
failure in one step is logged and the next step still executes". -/
theorem C8_counterexample :
    (stopAllRun ⟨true, true, true, true, false, false, false⟩).2 = false ∧
    TopoAction.attempted TopoSvc.mgmtNode ∉
      (stopAllRun ⟨true, true, true, true, false, false, false⟩).1 := by
  decide

/-- C8 (amended): a service whose install marker is absent is skipped (not
failed) while the remaining services are still processed with overall
success — in particular `stopAll` with the time-series store (kairosdb) not
installed still stops the UI and the management node and succeeds, and the
same skipping holds for `startAll`; however the steps are not
failure-tolerant: a step that raises aborts all remaining steps, so a UI
stop failure prevents the management-node stop. -/
theorem C8_topology_partial :
    (∀ ci ki ui : Bool,
      (stopAllRun ⟨ci, ki, ui, false, false, false, false⟩).2 = true ∧
      (ki = false →
        TopoAction.skipped TopoSvc.kairosdb ∈
          (stopAllRun ⟨ci, ki, ui, false, false, false, false⟩).1 ∧
        TopoAction.attempted TopoSvc.kairosdb ∉
          (stopAllRun ⟨ci, ki, ui, false, false, false, false⟩).1) ∧
      TopoAction.attempted TopoSvc.mgmtNode ∈
        (stopAllRun ⟨ci, ki, ui, false, false, false, false⟩).1 ∧
      (ui = true →
        TopoAction.attempted TopoSvc.ui ∈
          (stopAllRun ⟨ci, ki, ui, false, false, false, false⟩).1) ∧
      (startAllRun ⟨ci, ki, ui, false, false, false, false⟩).2 = true ∧
      TopoAction.attempted TopoSvc.mgmtNode ∈
        (startAllRun ⟨ci, ki, ui, false, false, false, false⟩).1) ∧
    (∀ ci ki nf kf cf : Bool,
      (stopAllRun ⟨ci, ki, true, true, nf, kf, cf⟩).2 = false ∧
      TopoAction.attempted TopoSvc.mgmtNode ∉
        (stopAllRun ⟨ci, ki, true, true, nf, kf, cf⟩).1) := by
  constructor
  · decide
  · decide

/-- C8 witness: concrete instance of `C8_topology_partial` — kairosdb not
installed, everything else healthy: the kairosdb stop step is skipped, the
management-node stop still runs, and `stopAll` succeeds. -/
theorem C8_witness :
    TopoAction.skipped TopoSvc.kairosdb ∈
      (stopAllRun ⟨true, false, true, false, false, false, false⟩).1 ∧
    TopoAction.attempted TopoSvc.mgmtNode ∈
      (stopAllRun ⟨true, false, true, false, false, false, false⟩).1 ∧
    (stopAllRun ⟨true, false, true, false, false, false, false⟩).2 = true := by
  have h := C8_topology_partial.1 true false true
  exact ⟨(h.2.1 rfl).1, h.2.2.1, h.1⟩

/-! ## Database upgrade: Ctl.check_if_management_node_has_stopped
(ctl.py 427-467) and UpgradeDbCmd.run (ctl.py 2783-2868).

A row of the `ManagementNodeVO` registry is a `(hostname, heartBeat)` pair.
`s1` is the first query result and `s2` the re-query taken after the 10 s
grace sleep (the re-query only happens when `force` is set and `s1` is
nonempty).  The trace records registry queries, the sleep, the optional
`mysqldump` backup, the lazily created flyway baseline and the flyway
migration. -/

structure Node where
  hostname : String
  heartBeat : ℕ
deriving DecidableEq, Repr

inductive DbAction where
  | sample
  | sleep (seconds : ℕ)
  | backup
  | baseline
  | migrate
deriving DecidableEq, Repr

inductive DbError where
  | nodesStillRunning (ips : List String)
  | nodeStillAlive (host : String) (oldHb newHb : ℕ)
deriving DecidableEq, Repr

def DbError.isNodeStillAlive : DbError → Bool
  | DbError.nodeStillAlive _ _ _ => true
  | _ => false

/-- Inner loop of `bypass_check`: the first old-sample row with the same
hostname as `n` but a different heartbeat. -/
def findStale (old : List Node) (n : Node) : Option Node :=
  old.find? (fun o => decide (o.hostname = n.hostname ∧ o.heartBeat ≠ n.heartBeat))

/-- Outer loop of `bypass_check` over the re-queried rows: the first
`(new row, old row)` pair proving a node is still alive. -/
def findConflict (old : List Node) : List Node → Option (Node × Node)
  | [] => none
  | n :: rest =>
    match findStale old n with
    | some o => some (n, o)
    | none => findConflict old rest

/-- `Ctl.check_if_management_node_has_stopped`: without `force`, any row in
the registry raises `NodesStillRunning`; with `force`, a nonempty registry
triggers a 10 s sleep and a re-query, and a heartbeat that changed between
the two samples raises the node-still-alive error. -/
def check_if_management_node_has_stopped (force : Bool) (s1 s2 : List Node) :
    List DbAction × Option DbError :=
  if force = true then
    match s1 with
    | [] => ([DbAction.sample], none)
    | _ :: _ =>
      match findConflict s1 s2 with
      | some (n, o) =>
        ([DbAction.sample, DbAction.sleep 10, DbAction.sample],
          some (DbError.nodeStillAlive n.hostname o.heartBeat n.heartBeat))
      | none => ([DbAction.sample, DbAction.sleep 10, DbAction.sample], none)
  else
    match s1 with
    | [] => ([DbAction.sample], none)
    | _ :: _ =>
      ([DbAction.sample], some (DbError.nodesStillRunning (s1.map Node.hostname)))

/-- The value argparse stores for `--no-backup`: the declaration has
`default=False` but no boolean action, so a supplied value is kept as the
raw string. -/
inductive PyVal where
  | pyFalse
  | pyStr (s : String)
deriving DecidableEq, Repr

/-- Python truthiness of that value: `False` is falsy, a string is truthy
iff it is nonempty. -/
def truthy : PyVal → Bool
  | PyVal.pyFalse => false
  | PyVal.pyStr s => decide (s ≠ "")

/-- `UpgradeDbCmd.run` after the tool/path checks: the liveness check, then
(unless dry-run) `backup_current_database()` (skipped when `args.no_backup`
is truthy), `create_schema_version_table_if_needed()` (baseline only when
the `schema_version` table is absent), then `migrate()`. -/
def upgradeDbRun (force dry_run : Bool) (no_backup : PyVal)
    (s1 s2 : List Node) (schemaVersionTableExists : Bool) :
    List DbAction × Option DbError :=
  let c := check_if_management_node_has_stopped force s1 s2
  match c.2 with
  | some e => (c.1, some e)
  | none =>
    if dry_run = true then (c.1, none)
    else
      let acts1 := if truthy no_backup = true then [] else [DbAction.backup]
      let acts2 := if schemaVersionTableExists = true then [] else [DbAction.baseline]
      (c.1 ++ acts1 ++ acts2 ++ [DbAction.migrate], none)

/-- `findConflict` finds nothing iff every re-queried row agrees on the
heartbeat with every old row of the same hostname. -/
theorem findConflict_eq_none_iff (old : List Node) (new : List Node) :
    findConflict old new = none ↔
      ∀ n ∈ new, ∀ o ∈ old, o.hostname = n.hostname → o.heartBeat = n.heartBeat := by
  induction new with
  | nil => simp [findConflict]
  | cons n rest ih =>
    simp only [findConflict]
    cases hf : findStale old n with
    | some o =>
      have ho : o ∈ old := List.mem_of_find?_eq_some hf
      have hp := List.find?_some hf
      simp only [decide_eq_true_eq] at hp
      constructor
      · intro h
        exact Option.noConfusion h
      · intro hall
        exact absurd (hall n (List.mem_cons_self n rest) o ho hp.1) hp.2
    | none =>
      have hhead : ∀ o ∈ old, o.hostname = n.hostname → o.heartBeat = n.heartBeat := by
        intro o ho heq
        have h := List.find?_eq_none.mp hf o ho
        simp only [decide_eq_true_eq] at h
        by_contra hne
        exact h ⟨heq, hne⟩
      rw [ih]
      constructor
      · intro h m hm o ho
        rcases List.mem_cons.mp hm with rfl | hm2
        · exact hhead o ho
        · exact h m hm2 o ho
      · intro h m hm o ho
        exact h m (List.mem_cons_of_mem n hm) o ho

/-- C2: a database upgrade with `force = false` and at least one row in the
management-node registry fails with the `NodesStillRunning` error naming the
live hostnames, and performs neither the migration nor the baseline
creation (nor the backup). -/
theorem C2_upgrade_db_no_force (hd : Node) (tl s2 : List Node) (dr : Bool)
    (nb : PyVal) (sv : Bool) :
    (upgradeDbRun false dr nb (hd :: tl) s2 sv).2 =
      some (DbError.nodesStillRunning ((hd :: tl).map Node.hostname)) ∧
    DbAction.migrate ∉ (upgradeDbRun false dr nb (hd :: tl) s2 sv).1 ∧
    DbAction.baseline ∉ (upgradeDbRun false dr nb (hd :: tl) s2 sv).1 ∧
    DbAction.backup ∉ (upgradeDbRun false dr nb (hd :: tl) s2 sv).1 := by
  simp [upgradeDbRun, check_if_management_node_has_stopped]

/-- C2 witness: concrete instance of `C2_upgrade_db_no_force` with one live
node. -/
theorem C2_witness :
    (upgradeDbRun false false PyVal.pyFalse [⟨"10.0.0.1", 7⟩] [] true).2 =
      some (DbError.nodesStillRunning ["10.0.0.1"]) :=
  (C2_upgrade_db_no_force ⟨"10.0.0.1", 7⟩ [] [] false PyVal.pyFalse true).1

/-- C3 counterexample to the claim as stated: two nodes are registered; node
`a` is present in both samples with an unchanged heartbeat — by the claim
("if any such node's heartbeat is unchanged the migration proceeds") the
migration should proceed — yet node `b`'s heartbeat changed, so the code
fails and performs no migration. -/
theorem C3_counterexample :
    ((⟨"a", 1⟩ : Node) ∈ ([⟨"a", 1⟩, ⟨"b", 1⟩] : List Node) ∧
      (⟨"a", 1⟩ : Node) ∈ ([⟨"a", 1⟩, ⟨"b", 2⟩] : List Node)) ∧
    (upgradeDbRun true false PyVal.pyFalse
        [⟨"a", 1⟩, ⟨"b", 1⟩] [⟨"a", 1⟩, ⟨"b", 2⟩] true).2 ≠ none ∧
    DbAction.migrate ∉
      (upgradeDbRun true false PyVal.pyFalse
        [⟨"a", 1⟩, ⟨"b", 1⟩] [⟨"a", 1⟩, ⟨"b", 2⟩] true).1 := by
  decide

/-- C3 (amended): a database upgrade with `force = true` and a nonempty
registry samples the registry, sleeps the fixed 10 s grace period and
re-samples; it succeeds and migrates if and only if EVERY node present in
both samples (matched by hostname) has an unchanged heartbeat; if ANY such
node's heartbeat changed, it fails with the node-still-alive error and no
migration occurs. -/
theorem C3_upgrade_db_force (hd : Node) (tl s2 : List Node) (nb : PyVal) (sv : Bool) :
    ((upgradeDbRun true false nb (hd :: tl) s2 sv).1.take 3 =
        [DbAction.sample, DbAction.sleep 10, DbAction.sample]) ∧
    ((upgradeDbRun true false nb (hd :: tl) s2 sv).2 = none ↔
        ∀ n ∈ s2, ∀ o ∈ hd :: tl, o.hostname = n.hostname → o.heartBeat = n.heartBeat) ∧
    (DbAction.migrate ∈ (upgradeDbRun true false nb (hd :: tl) s2 sv).1 ↔
        (upgradeDbRun true false nb (hd :: tl) s2 sv).2 = none) ∧
    (∀ e, (upgradeDbRun true false nb (hd :: tl) s2 sv).2 = some e →
        e.isNodeStillAlive = true) := by
  cases hf : findConflict (hd :: tl) s2 with
  | some p =>
    obtain ⟨n, o⟩ := p
    have hnot : ¬ ∀ n ∈ s2, ∀ o ∈ hd :: tl,
        o.hostname = n.hostname → o.heartBeat = n.heartBeat := by
      intro hall
      have h := (findConflict_eq_none_iff (hd :: tl) s2).mpr hall
      rw [hf] at h
      exact Option.noConfusion h
    have hr : upgradeDbRun true false nb (hd :: tl) s2 sv =
        ([DbAction.sample, DbAction.sleep 10, DbAction.sample],
          some (DbError.nodeStillAlive n.hostname o.heartBeat n.heartBeat)) := by
      simp [upgradeDbRun, check_if_management_node_has_stopped, hf]
    rw [hr]
    refine ⟨rfl, ?_, ?_, ?_⟩
    · exact ⟨fun h => Option.noConfusion h, fun hall => absurd hall hnot⟩
    · constructor
      · intro h
        simp at h
      · intro h
        exact Option.noConfusion h
    · intro e he
      injection he with h
      rw [← h]
      rfl
  | none =>
    have hall := (findConflict_eq_none_iff (hd :: tl) s2).mp hf
    have hr : upgradeDbRun true false nb (hd :: tl) s2 sv =
        ([DbAction.sample, DbAction.sleep 10, DbAction.sample] ++
          (if truthy nb = true then [] else [DbAction.backup]) ++
          (if sv = true then [] else [DbAction.baseline]) ++ [DbAction.migrate], none) := by
      simp [upgradeDbRun, check_if_management_node_has_stopped, hf]
    rw [hr]
    refine ⟨?_, iff_of_true rfl hall, ?_, ?_⟩
    · simp
    · simp
    · intro e he
      exact Option.noConfusion he

/-- C3 witness: concrete instance of `C3_upgrade_db_force` — a single node
whose heartbeat is identical in both samples: the upgrade succeeds. -/
theorem C3_witness :
    (upgradeDbRun true false PyVal.pyFalse [⟨"a", 1⟩] [⟨"a", 1⟩] true).2 = none :=
  (C3_upgrade_db_force ⟨"a", 1⟩ [] [⟨"a", 1⟩] PyVal.pyFalse true).2.1.mpr (by decide)

/-- C10: in a database upgrade that reaches the backup step (no live nodes,
not a dry run), the pre-migration `mysqldump` backup is performed iff the
`--no-backup` value is falsy; the option is declared with `default=False`
and no boolean action, so any nonempty supplied string — including the
string "false" — is truthy and disables the backup, while the default
`False` keeps it; the migration runs either way. -/
theorem C10_no_backup_truthy (nb : PyVal) (s2 : List Node) (sv : Bool) :
    (DbAction.backup ∈ (upgradeDbRun false false nb [] s2 sv).1 ↔ truthy nb = false) ∧
    (∀ s : String, s ≠ "" → truthy (PyVal.pyStr s) = true) ∧
    truthy (PyVal.pyStr "false") = true ∧
    truthy PyVal.pyFalse = false ∧
    DbAction.migrate ∈ (upgradeDbRun false false nb [] s2 sv).1 := by
  refine ⟨?_, ?_, by decide, rfl, ?_⟩
  · cases htr : truthy nb <;> cases sv <;>
      simp [upgradeDbRun, check_if_management_node_has_stopped, htr]
  · intro s hs
    simp [truthy, hs]
  · cases htr : truthy nb <;> cases sv <;>
      simp [upgradeDbRun, check_if_management_node_has_stopped, htr]

/-- C10 witness: concrete instance of `C10_no_backup_truthy` — supplying the
string "false" for `--no-backup` disables the backup. -/
theorem C10_witness :
    DbAction.backup ∉ (upgradeDbRun false false (PyVal.pyStr "false") [] [] true).1 :=
  fun hmem =>
    absurd ((C10_no_backup_truthy (PyVal.pyStr "false") [] true).1.mp hmem) (by decide)

/-! ## Scoped identity switch: UseUserZstack (ctl.py 210-231).

`__enter__` saves `os.getuid()`, `os.getgid()` and `os.environ['HOME']`,
then switches the EFFECTIVE gid/uid to the zstack account and `HOME` to the
zstack home; `__exit__` (run by the `with` statement on both the normal and
the exceptional exit path) sets the effective uid/gid back to the SAVED
REAL ids and restores `HOME`.  `ProcState` carries real and effective ids,
`HOME`, and the files the enclosed body mutates; the body is an arbitrary
state transformer that may also signal an error (a raised exception). -/

structure ProcState where
  ruid : ℕ
  euid : ℕ
  rgid : ℕ
  egid : ℕ
  home : String
  files : List (String × String)
deriving DecidableEq, Repr

structure SavedIdentity where
  root_uid : ℕ
  root_gid : ℕ
  root_home : String
deriving DecidableEq, Repr

inductive CtlErr where
  | err (msg : String)
deriving DecidableEq, Repr

/-- `UseUserZstack.__enter__`: save `os.getuid()`, `os.getgid()` and `HOME`,
then `os.setegid(zstack gid)`, `os.seteuid(zstack uid)`, and point `HOME`
at the zstack home directory. -/
def uuzEnter (zuid zgid : ℕ) (zhome : String) (s : ProcState) :
    SavedIdentity × ProcState :=
  (⟨s.ruid, s.rgid, s.home⟩,
    { s with egid := zgid, euid := zuid, home := zhome })

/-- `UseUserZstack.__exit__`: `os.seteuid(saved uid)`, `os.setegid(saved
gid)`, restore `HOME`. -/
def uuzExit (saved : SavedIdentity) (s : ProcState) : ProcState :=
  { s with euid := saved.root_uid, egid := saved.root_gid, home := saved.root_home }

/-- The `with use_user_zstack():` statement: enter, run the body, and run
`__exit__` whether or not the body raised; a raised error propagates after
`__exit__` has run. -/
def use_user_zstack (zuid zgid : ℕ) (zhome : String)
    (body : ProcState → ProcState × Option CtlErr) (s : ProcState) :
    ProcState × Option CtlErr :=
  let es := uuzEnter zuid zgid zhome s
  let r := body es.2
  (uuzExit es.1 r.1, r.2)

/-- C9: for every enclosed operation `body` — including one that raises —
and every caller state whose effective ids equal its real ids (the case for
every zstack-ctl invocation, since `Ctl.run` requires `os.getuid() == 0`
and the process keeps real = effective ids until this very construct
switches them), the scoped block restores the caller's effective uid,
effective gid and `HOME` on exit, while keeping the body's file mutations
and propagating the body's error verbatim. -/
theorem C9_use_user_zstack_restores (zuid zgid : ℕ) (zhome : String)
    (body : ProcState → ProcState × Option CtlErr) (s : ProcState)
    (h1 : s.euid = s.ruid) (h2 : s.egid = s.rgid) :
    (use_user_zstack zuid zgid zhome body s).1.euid = s.euid ∧
    (use_user_zstack zuid zgid zhome body s).1.egid = s.egid ∧
    (use_user_zstack zuid zgid zhome body s).1.home = s.home ∧
    (use_user_zstack zuid zgid zhome body s).1.files =
      (body (uuzEnter zuid zgid zhome s).2).1.files ∧
    (use_user_zstack zuid zgid zhome body s).2 =
      (body (uuzEnter zuid zgid zhome s).2).2 := by
  refine ⟨?_, ?_, rfl, rfl, rfl⟩
  · simp [use_user_zstack, uuzEnter, uuzExit, h1]
  · simp [use_user_zstack, uuzEnter, uuzExit, h2]

/-- C9 witness: a concrete root caller and a body that both mutates the
property file and raises; the identity and `HOME` are restored, the file
mutation survives, and the error propagates. -/
theorem C9_witness :
    (use_user_zstack 1000 1000 "/home/zstack"
        (fun st => ({ st with files := [("k", "v")], euid := 42 },
          some (CtlErr.err "boom")))
        ⟨0, 0, 0, 0, "/root", []⟩).1.euid = 0 ∧
    (use_user_zstack 1000 1000 "/home/zstack"
        (fun st => ({ st with files := [("k", "v")], euid := 42 },
          some (CtlErr.err "boom")))
        ⟨0, 0, 0, 0, "/root", []⟩).1.home = "/root" := by
  have h := C9_use_user_zstack_restores 1000 1000 "/home/zstack"
    (fun st => ({ st with files := [("k", "v")], euid := 42 },
      some (CtlErr.err "boom")))
    ⟨0, 0, 0, 0, "/root", []⟩ rfl rfl
  exact ⟨h.1, h.2.2.1⟩

end Zstack
